import Mathlib

/-!
Shallow embedding of `js-redis-key-store` (`src/index.js`): a bidirectional
identifier-mapping store backed by a key-value storage engine.

The storage engine is modelled as an association list of string keys and
values together with three failure knobs mirroring the error cases the code
reacts to: `setOk` (whether a given `set` call reports "OK"), `scanOk`
(whether the `keys` scan call errors) and `bulkOk` (whether the bulk `del`
call errors).  A `set` that fails writes nothing; `del` always succeeds and
reports the number of removed rows, as the code only inspects `value > 0`.
-/

/-- The backend keyspace: an association list from keys to values.  `set`
keeps keys unique, but arbitrary lists are allowed as prior states. -/
abbrev Store := List (String × String)

/-- Remove every entry whose key is `k` (the effect of redis `DEL k`). -/
def storeDelKey (st : Store) (k : String) : Store :=
  st.filter (fun q => q.1 != k)

/-- Look up the value stored at `k` (redis `GET k`), `none` when absent. -/
def storeGet (st : Store) (k : String) : Option String :=
  (st.find? (fun q => q.1 == k)).map (fun q => q.2)

/-- Write `v` at `k` (redis `SET k v`), replacing any previous entry. -/
def storeSet (st : Store) (k v : String) : Store :=
  (k, v) :: storeDelKey st k

/-- Number of rows holding key `k`; redis `DEL k` reports this count. -/
def storeCount (st : Store) (k : String) : Nat :=
  (st.filter (fun q => q.1 == k)).length

/-- Does the pattern `pat ++ "*"` match key `k`?  Redis glob `i:*` matches
exactly the keys that start with `i:`. -/
def keyMatches (pat k : String) : Bool :=
  pat.data.isPrefixOf k.data

/-- The modelled redis client: the keyspace plus failure behaviour. -/
structure Redis where
  store : Store := []
  setOk : String → Bool := fun _ => true
  scanOk : Bool := true
  bulkOk : Bool := true

/-- `storage.set(key, value, cb)`: on success the entry is written and the
callback sees `"OK"`; on error nothing is written. -/
def rset (r : Redis) (k v : String) : Redis × Bool :=
  if r.setOk k then ({ r with store := storeSet r.store k v }, true)
  else (r, false)

/-- `storage.get(key, cb)`: the callback sees the value or `null`. -/
def rget (r : Redis) (k : String) : Option String :=
  storeGet r.store k

/-- `storage.del(key, cb)`: the callback sees the number of removed rows. -/
def rdel (r : Redis) (k : String) : Redis × Nat :=
  ({ r with store := storeDelKey r.store k }, storeCount r.store k)

/-- `storage.keys(pattern, cb)` for a pattern `pat ++ "*"`: `none` when the
scan errors, otherwise the list of matching keys. -/
def rkeys (r : Redis) (pat : String) : Option (List String) :=
  if r.scanOk then
    some ((r.store.filter (fun q => keyMatches pat q.1)).map (fun q => q.1))
  else none

/-- `storage.del(keys, cb)` on a key list: on error nothing is removed. -/
def rbulkdel (r : Redis) (ks : List String) : Redis × Nat :=
  if r.bulkOk then ({ r with store := ks.foldl storeDelKey r.store }, ks.length)
  else (r, 0)

/-! ## The key codec (`buildBotmaticKey` / `buildExternalKey`) -/

/-- `` (integrationId, botmaticId) => `${integrationId}:b:${botmaticId}` `` -/
def buildBotmaticKey (integrationId botmaticId : String) : String :=
  integrationId ++ ":b:" ++ botmaticId

/-- `` (integrationId, externalId) => `${integrationId}:e:${externalId}` `` -/
def buildExternalKey (integrationId externalId : String) : String :=
  integrationId ++ ":e:" ++ externalId

/-- The two directions of an association, as in the spec's key codec. -/
inductive Direction
  | primary
  | external
deriving DecidableEq

/-- The spec's `encodeKey(scope, direction, id)`, dispatching to the two
key builders of the source. -/
def encodeKey (scope : String) (d : Direction) (id : String) : String :=
  match d with
  | .primary => buildBotmaticKey scope id
  | .external => buildExternalKey scope id

/-! ## The store operations (`_saveIds`, `_getBotmaticId`, `_getExtId`,
`_deleteIds`, `_deleteAllIds`) -/

/-- `_saveId`: resolves `value === "OK"`. -/
def saveId (storage : Redis) (key id : String) : Redis × Bool :=
  rset storage key id

/-- `_getId`: resolves the value the callback saw. -/
def getId (storage : Redis) (key : String) : Option String :=
  rget storage key

/-- `_delId`: resolves `value > 0`. -/
def delId (storage : Redis) (key : String) : Redis × Bool :=
  ((rdel storage key).1, decide (0 < (rdel storage key).2))

/-- `_allPromisesTrue`: `values.reduce((acc, v) => acc === true && v === true, true)`. -/
def allPromisesTrue (values : List Bool) : Bool :=
  values.foldl (fun acc value => acc && value) true

/-- `_saveIds`: builds both keys, guards on their JS-truthiness, then issues
the two sets sequentially and aggregates. -/
def saveIds (storage : Redis) (integrationId botmaticId extId : String) :
    Redis × Bool :=
  let botmaticKey := buildBotmaticKey integrationId botmaticId
  let externalKey := buildExternalKey integrationId extId
  if botmaticKey ≠ "" ∧ externalKey ≠ "" then
    let res1 := saveId storage botmaticKey extId
    let res2 := saveId res1.1 externalKey botmaticId
    (res2.1, allPromisesTrue [res1.2, res2.2])
  else
    (storage, false)

/-- `_getBotmaticId`: reverse lookup through the external key. -/
def getBotmaticId (storage : Redis) (integrationId extId : String) :
    Option String :=
  getId storage (buildExternalKey integrationId extId)

/-- `_getExtId`: forward lookup through the botmatic key. -/
def getExtId (storage : Redis) (integrationId botmaticId : String) :
    Option String :=
  getId storage (buildBotmaticKey integrationId botmaticId)

/-- `_deleteIds`: deletes both keys sequentially and aggregates. -/
def deleteIds (storage : Redis) (integrationId botmaticId extId : String) :
    Redis × Bool :=
  let res1 := delId storage (buildBotmaticKey integrationId botmaticId)
  let res2 := delId res1.1 (buildExternalKey integrationId extId)
  (res2.1, allPromisesTrue [res1.2, res2.2])

/-- `_deleteAllIds`: scans `` `${integrationId}:*` ``; on scan error resolves
`false`, otherwise bulk-deletes and resolves `true` whatever the bulk delete
reported. -/
def deleteAllIds (storage : Redis) (integrationId : String) : Redis × Bool :=
  match rkeys storage (integrationId ++ ":") with
  | some ks => ((rbulkdel storage ks).1, true)
  | none => (storage, false)

/-- A fresh healthy client over an empty keyspace. -/
def redis0 : Redis := {}

/-! ## Key codec facts -/

/-- The character content of a forward key. -/
lemma data_buildBotmaticKey (i b : String) :
    (buildBotmaticKey i b).data = i.data ++ ':' :: 'b' :: ':' :: b.data := by
  simp [buildBotmaticKey, String.data_append]

/-- The character content of a reverse key. -/
lemma data_buildExternalKey (i e : String) :
    (buildExternalKey i e).data = i.data ++ ':' :: 'e' :: ':' :: e.data := by
  simp [buildExternalKey, String.data_append]

/-- The direction tag character used by the codec. -/
def tagChar : Direction → Char
  | .primary => 'b'
  | .external => 'e'

/-- The character content of an encoded key. -/
lemma data_encodeKey (s : String) (d : Direction) (i : String) :
    (encodeKey s d i).data = s.data ++ ':' :: tagChar d :: ':' :: i.data := by
  cases d <;>
    simp [encodeKey, tagChar, data_buildBotmaticKey, data_buildExternalKey]

/-- A forward key is never the empty string. -/
lemma buildBotmaticKey_ne_empty (i b : String) : buildBotmaticKey i b ≠ "" := by
  intro h
  have hd := congrArg String.data h
  rw [data_buildBotmaticKey] at hd
  simp at hd

/-- A reverse key is never the empty string. -/
lemma buildExternalKey_ne_empty (i e : String) : buildExternalKey i e ≠ "" := by
  intro h
  have hd := congrArg String.data h
  rw [data_buildExternalKey] at hd
  simp at hd

/-- Within one scope, a forward key never equals a reverse key: the tags
`b` and `e` sit at the same offset. -/
lemma buildBotmaticKey_ne_buildExternalKey (i b e : String) :
    buildBotmaticKey i b ≠ buildExternalKey i e := by
  intro h
  have hd := congrArg String.data h
  rw [data_buildBotmaticKey, data_buildExternalKey] at hd
  have h2 := List.append_cancel_left hd
  simp at h2

/-- Reverse keys of one scope are injective in the id. -/
lemma buildExternalKey_inj_id (i e1 e2 : String)
    (h : buildExternalKey i e1 = buildExternalKey i e2) : e1 = e2 := by
  have hd := congrArg String.data h
  rw [data_buildExternalKey, data_buildExternalKey] at hd
  have h2 := List.append_cancel_left hd
  simp at h2
  exact String.ext h2

/-- Splitting a list at a separator character that occurs in neither left
part: the decomposition is unique. -/
lemma append_cons_inj {c : Char} {l1 l2 r1 r2 : List Char}
    (h1 : c ∉ l1) (h2 : c ∉ l2) (h : l1 ++ c :: r1 = l2 ++ c :: r2) :
    l1 = l2 ∧ r1 = r2 := by
  induction l1 generalizing l2 with
  | nil =>
    cases l2 with
    | nil => simpa using h
    | cons a t2 =>
      simp only [List.nil_append, List.cons_append, List.cons.injEq] at h
      exact absurd (h.1 ▸ List.mem_cons_self a t2) h2
  | cons a t1 ih =>
    cases l2 with
    | nil =>
      simp only [List.nil_append, List.cons_append, List.cons.injEq] at h
      exact absurd (h.1.symm ▸ List.mem_cons_self a t1) h1
    | cons b t2 =>
      simp only [List.cons_append, List.cons.injEq] at h
      obtain ⟨hab, ht⟩ := h
      have h1t : c ∉ t1 := fun hc => h1 (List.mem_cons_of_mem a hc)
      have h2t : c ∉ t2 := fun hc => h2 (List.mem_cons_of_mem b hc)
      obtain ⟨he, hr⟩ := ih h1t h2t ht
      exact ⟨by rw [hab, he], hr⟩

/-! ## Store facts -/

/-- Lookup steps past a non-matching head entry. -/
lemma storeGet_cons_ne (q : String × String) (t : Store) (k : String)
    (h : q.1 ≠ k) : storeGet (q :: t) k = storeGet t k := by
  simp only [storeGet]
  rw [List.find?_cons_of_neg _ (by simp [h])]

/-- Lookup returns the value of a matching head entry. -/
lemma storeGet_cons_self (q : String × String) (t : Store) (k : String)
    (h : q.1 = k) : storeGet (q :: t) k = some q.2 := by
  simp only [storeGet]
  rw [List.find?_cons_of_pos _ (by simp [h])]
  rfl

/-- Deleting a key keeps a head entry with a different key. -/
lemma storeDelKey_cons_ne (q : String × String) (t : Store) (k : String)
    (h : q.1 ≠ k) : storeDelKey (q :: t) k = q :: storeDelKey t k := by
  simp only [storeDelKey]
  exact List.filter_cons_of_pos (by simp [h])

/-- Deleting a key drops a head entry with that key. -/
lemma storeDelKey_cons_self (q : String × String) (t : Store) (k : String)
    (h : q.1 = k) : storeDelKey (q :: t) k = storeDelKey t k := by
  simp only [storeDelKey]
  exact List.filter_cons_of_neg (by simp [h])

/-- The row count counts a matching head entry. -/
lemma storeCount_cons_self (q : String × String) (t : Store) (k : String)
    (h : q.1 = k) : storeCount (q :: t) k = storeCount t k + 1 := by
  simp only [storeCount]
  rw [List.filter_cons_of_pos (by simp [h])]
  rfl

/-- The row count ignores a non-matching head entry. -/
lemma storeCount_cons_ne (q : String × String) (t : Store) (k : String)
    (h : q.1 ≠ k) : storeCount (q :: t) k = storeCount t k := by
  simp only [storeCount]
  rw [List.filter_cons_of_neg (by simp [h])]

/-- Looking up a key right after writing it yields the written value. -/
lemma storeGet_storeSet_self (st : Store) (k v : String) :
    storeGet (storeSet st k v) k = some v := by
  rw [storeSet, storeGet_cons_self _ _ _ rfl]

/-- Deleting a key makes it absent. -/
lemma storeGet_storeDelKey_self (st : Store) (k : String) :
    storeGet (storeDelKey st k) k = none := by
  induction st with
  | nil => rfl
  | cons q t ih =>
    by_cases h : q.1 = k
    · rw [storeDelKey_cons_self _ _ _ h]
      exact ih
    · rw [storeDelKey_cons_ne _ _ _ h, storeGet_cons_ne _ _ _ h]
      exact ih

/-- Deleting a key leaves every other key unchanged. -/
lemma storeGet_storeDelKey_ne (st : Store) (k k2 : String) (h : k2 ≠ k) :
    storeGet (storeDelKey st k) k2 = storeGet st k2 := by
  induction st with
  | nil => rfl
  | cons q t ih =>
    by_cases hq : q.1 = k
    · rw [storeDelKey_cons_self _ _ _ hq,
        storeGet_cons_ne _ _ _ (fun hc => h (hc.symm.trans hq))]
      exact ih
    · by_cases hq2 : q.1 = k2
      · rw [storeDelKey_cons_ne _ _ _ hq, storeGet_cons_self _ _ _ hq2,
          storeGet_cons_self _ _ _ hq2]
      · rw [storeDelKey_cons_ne _ _ _ hq, storeGet_cons_ne _ _ _ hq2,
          storeGet_cons_ne _ _ _ hq2]
        exact ih

/-- Writing a key leaves every other key unchanged. -/
lemma storeGet_storeSet_ne (st : Store) (k k2 v : String) (h : k2 ≠ k) :
    storeGet (storeSet st k v) k2 = storeGet st k2 := by
  rw [storeSet, storeGet_cons_ne _ _ _ (Ne.symm h)]
  exact storeGet_storeDelKey_ne st k k2 h

/-- The delete count is positive exactly when the key is present. -/
lemma storeCount_pos_iff (st : Store) (k : String) :
    0 < storeCount st k ↔ (storeGet st k).isSome := by
  induction st with
  | nil => simp [storeCount, storeGet]
  | cons q t ih =>
    by_cases h : q.1 = k
    · rw [storeCount_cons_self _ _ _ h, storeGet_cons_self _ _ _ h]
      simp
    · rw [storeCount_cons_ne _ _ _ h, storeGet_cons_ne _ _ _ h]
      exact ih

/-- Deleting one key does not change the count of another. -/
lemma storeCount_storeDelKey_ne (st : Store) (k k2 : String) (h : k2 ≠ k) :
    storeCount (storeDelKey st k) k2 = storeCount st k2 := by
  induction st with
  | nil => rfl
  | cons q t ih =>
    by_cases hq : q.1 = k
    · rw [storeDelKey_cons_self _ _ _ hq,
        storeCount_cons_ne _ _ _ (fun hc => h (hc.symm.trans hq))]
      exact ih
    · by_cases hq2 : q.1 = k2
      · rw [storeDelKey_cons_ne _ _ _ hq, storeCount_cons_self _ _ _ hq2,
          storeCount_cons_self _ _ _ hq2, ih]
      · rw [storeDelKey_cons_ne _ _ _ hq, storeCount_cons_ne _ _ _ hq2,
          storeCount_cons_ne _ _ _ hq2]
        exact ih

/-! ## Pattern matching and scan facts -/

/-- `List.isPrefixOf` holds exactly when the second list extends the first. -/
lemma isPrefixOf_eq_true_iff (l1 l2 : List Char) :
    l1.isPrefixOf l2 = true ↔ ∃ t, l1 ++ t = l2 := by
  induction l1 generalizing l2 with
  | nil => simp [List.isPrefixOf]
  | cons a t1 ih =>
    cases l2 with
    | nil => simp [List.isPrefixOf]
    | cons b t2 =>
      simp only [List.isPrefixOf, Bool.and_eq_true, beq_iff_eq, ih,
        List.cons_append, List.cons.injEq]
      constructor
      · rintro ⟨hab, t, ht⟩
        exact ⟨t, hab, ht⟩
      · rintro ⟨t, hab, ht⟩
        exact ⟨hab, t, ht⟩

/-- Glob matching, characterised on character lists. -/
lemma keyMatches_iff (pat k : String) :
    keyMatches pat k = true ↔ ∃ t, pat.data ++ t = k.data := by
  rw [keyMatches, isPrefixOf_eq_true_iff]

/-- The character content of the scan pattern head `i ++ ":"`. -/
lemma data_append_colon (s : String) : (s ++ ":").data = s.data ++ [':'] := by
  have h : (":" : String).data = [':'] := rfl
  rw [String.data_append, h]

/-- Forward keys of a scope match the scope's scan pattern. -/
lemma keyMatches_buildBotmaticKey_self (s q : String) :
    keyMatches (s ++ ":") (buildBotmaticKey s q) = true := by
  rw [keyMatches_iff, data_append_colon, data_buildBotmaticKey]
  exact ⟨'b' :: ':' :: q.data, by simp⟩

/-- Reverse keys of a scope match the scope's scan pattern. -/
lemma keyMatches_buildExternalKey_self (s q : String) :
    keyMatches (s ++ ":") (buildExternalKey s q) = true := by
  rw [keyMatches_iff, data_append_colon, data_buildExternalKey]
  exact ⟨'e' :: ':' :: q.data, by simp⟩

/-- A key whose scope part is a different colon-free scope does not match
the scan pattern of scope `s`. -/
lemma keyMatches_of_other_scope (s s2 : String) (hs : ':' ∉ s.data)
    (hs2 : ':' ∉ s2.data) (hne : s2 ≠ s) (l : List Char) (k : String)
    (hk : k.data = s2.data ++ ':' :: l) :
    keyMatches (s ++ ":") k = false := by
  rw [Bool.eq_false_iff]
  intro h1
  rw [keyMatches_iff, data_append_colon, hk] at h1
  obtain ⟨t, ht⟩ := h1
  rw [List.append_assoc] at ht
  have ht2 : s.data ++ ':' :: t = s2.data ++ ':' :: l := by
    simpa using ht
  obtain ⟨hss, _⟩ := append_cons_inj hs hs2 ht2
  exact hne (String.ext hss.symm)

/-- Keys listed by the scan are exactly the present keys matching the
pattern. -/
lemma mem_scan_iff (st : Store) (pat k : String) :
    k ∈ (st.filter (fun q => keyMatches pat q.1)).map (fun q => q.1) ↔
      keyMatches pat k = true ∧ ∃ v, (k, v) ∈ st := by
  simp only [List.mem_map, List.mem_filter]
  constructor
  · rintro ⟨q, ⟨hmem, hmatch⟩, hfst⟩
    exact ⟨hfst ▸ hmatch, q.2, by rw [← hfst]; simpa using hmem⟩
  · rintro ⟨hmatch, v, hmem⟩
    exact ⟨(k, v), ⟨hmem, hmatch⟩, rfl⟩

/-- Presence of a key in the store, as membership of an entry. -/
lemma storeGet_isSome_iff (st : Store) (k : String) :
    (storeGet st k).isSome ↔ ∃ v, (k, v) ∈ st := by
  induction st with
  | nil => simp [storeGet]
  | cons q t ih =>
    by_cases h : q.1 = k
    · rw [storeGet_cons_self _ _ _ h]
      simp only [Option.isSome_some, true_iff]
      exact ⟨q.2, by rw [← h]; simp⟩
    · rw [storeGet_cons_ne _ _ _ h, ih]
      constructor
      · rintro ⟨v, hv⟩
        exact ⟨v, List.mem_cons_of_mem _ hv⟩
      · rintro ⟨v, hv⟩
        rcases List.mem_cons.mp hv with heq | hmem
        · exact absurd (congrArg Prod.fst heq).symm h
        · exact ⟨v, hmem⟩

/-- Effect of the bulk delete on an arbitrary key. -/
lemma storeGet_foldl_storeDelKey (ks : List String) (st : Store) (k : String) :
    storeGet (ks.foldl storeDelKey st) k =
      if k ∈ ks then none else storeGet st k := by
  induction ks generalizing st with
  | nil => simp
  | cons a t ih =>
    rw [List.foldl_cons, ih]
    by_cases hk : k ∈ t
    · simp [hk]
    · by_cases hka : k = a
      · simp [hk, hka, storeGet_storeDelKey_self]
      · simp [hk, hka, storeGet_storeDelKey_ne st a k hka]

/-! ## Operation characterisations -/

/-- The truthiness guard of `_saveIds` always passes: both built keys are
non-empty strings, so the two sets are always issued. -/
lemma saveIds_eq_sets (r : Redis) (s p e : String) :
    saveIds r s p e =
      ((rset (rset r (buildBotmaticKey s p) e).1 (buildExternalKey s e) p).1,
        (rset r (buildBotmaticKey s p) e).2 &&
          (rset (rset r (buildBotmaticKey s p) e).1
            (buildExternalKey s e) p).2) := by
  simp only [saveIds, saveId]
  rw [if_pos ⟨buildBotmaticKey_ne_empty s p, buildExternalKey_ne_empty s e⟩]
  simp [allPromisesTrue]

/-- A set call does not change the failure behaviour of the client. -/
lemma rset_setOk (r : Redis) (k v : String) : (rset r k v).1.setOk = r.setOk := by
  cases h : r.setOk k <;> simp [rset, h]

/-- The result a set call reports. -/
lemma rset_snd (r : Redis) (k v : String) : (rset r k v).2 = r.setOk k := by
  cases h : r.setOk k <;> simp [rset, h]

/-- The keyspace after a successful set. -/
lemma rset_store_of_ok (r : Redis) (k v : String) (h : r.setOk k = true) :
    (rset r k v).1.store = storeSet r.store k v := by
  simp [rset, h]

/-- The keyspace after a failed set. -/
lemma rset_store_of_err (r : Redis) (k v : String) (h : r.setOk k = false) :
    (rset r k v).1.store = r.store := by
  simp [rset, h]

/-- `saveIds` reports exactly the conjunction of the two set results. -/
lemma saveIds_snd (r : Redis) (s p e : String) :
    (saveIds r s p e).2 =
      (r.setOk (buildBotmaticKey s p) && r.setOk (buildExternalKey s e)) := by
  rw [saveIds_eq_sets]
  simp [rset_snd, rset_setOk]

/-- `saveIds` does not change the failure behaviour of the client. -/
lemma saveIds_setOk (r : Redis) (s p e : String) :
    (saveIds r s p e).1.setOk = r.setOk := by
  rw [saveIds_eq_sets]
  simp [rset_setOk]

/-- The keyspace after a fully successful save. -/
lemma saveIds_store_ok_ok (r : Redis) (s p e : String)
    (h1 : r.setOk (buildBotmaticKey s p) = true)
    (h2 : r.setOk (buildExternalKey s e) = true) :
    (saveIds r s p e).1.store =
      storeSet (storeSet r.store (buildBotmaticKey s p) e)
        (buildExternalKey s e) p := by
  rw [saveIds_eq_sets]
  simp only []
  rw [rset_store_of_ok _ _ _ (by rw [rset_setOk]; exact h2),
    rset_store_of_ok _ _ _ h1]

/-- The keyspace after a save whose first set succeeded and whose second
set failed: the forward entry stays written. -/
lemma saveIds_store_ok_err (r : Redis) (s p e : String)
    (h1 : r.setOk (buildBotmaticKey s p) = true)
    (h2 : r.setOk (buildExternalKey s e) = false) :
    (saveIds r s p e).1.store = storeSet r.store (buildBotmaticKey s p) e := by
  rw [saveIds_eq_sets]
  simp only []
  rw [rset_store_of_err _ _ _ (by rw [rset_setOk]; exact h2),
    rset_store_of_ok _ _ _ h1]

/-- The keyspace after a save whose first set failed and whose second set
succeeded: the reverse entry stays written. -/
lemma saveIds_store_err_ok (r : Redis) (s p e : String)
    (h1 : r.setOk (buildBotmaticKey s p) = false)
    (h2 : r.setOk (buildExternalKey s e) = true) :
    (saveIds r s p e).1.store = storeSet r.store (buildExternalKey s e) p := by
  rw [saveIds_eq_sets]
  simp only []
  rw [rset_store_of_ok _ _ _ (by rw [rset_setOk]; exact h2),
    rset_store_of_err _ _ _ h1]

/-- `deleteIds` deletes both keys unconditionally. -/
lemma deleteIds_store (r : Redis) (s p e : String) :
    (deleteIds r s p e).1.store =
      storeDelKey (storeDelKey r.store (buildBotmaticKey s p))
        (buildExternalKey s e) := rfl

/-- `deleteIds` reports whether both deletes removed at least one row. -/
lemma deleteIds_snd (r : Redis) (s p e : String) :
    (deleteIds r s p e).2 =
      (decide (0 < storeCount r.store (buildBotmaticKey s p)) &&
        decide (0 < storeCount r.store (buildExternalKey s e))) := by
  simp only [deleteIds, delId, rdel, allPromisesTrue, List.foldl,
    Bool.true_and]
  simp only [storeCount_storeDelKey_ne _ _ _
    (Ne.symm (buildBotmaticKey_ne_buildExternalKey s p e))]

/-- The result of `deleteAllIds` is decided by the scan alone. -/
lemma deleteAllIds_snd (r : Redis) (i : String) :
    (deleteAllIds r i).2 = r.scanOk := by
  cases h : r.scanOk <;> simp [deleteAllIds, rkeys, h]

/-- The keyspace after `deleteAllIds` on a healthy client: exactly the keys
matching the scope pattern are gone. -/
lemma deleteAllIds_storeGet (r : Redis) (i : String) (hscan : r.scanOk = true)
    (hbulk : r.bulkOk = true) (k : String) :
    storeGet (deleteAllIds r i).1.store k =
      if keyMatches (i ++ ":") k = true then none else storeGet r.store k := by
  have hk : rkeys r (i ++ ":") =
      some ((r.store.filter (fun q => keyMatches (i ++ ":") q.1)).map
        (fun q => q.1)) := by
    simp [rkeys, hscan]
  simp only [deleteAllIds, hk, rbulkdel, hbulk, if_true]
  rw [storeGet_foldl_storeDelKey]
  by_cases hm : keyMatches (i ++ ":") k = true
  · rw [if_pos hm]
    by_cases hmem : k ∈ (r.store.filter
        (fun q => keyMatches (i ++ ":") q.1)).map (fun q => q.1)
    · rw [if_pos hmem]
    · rw [if_neg hmem]
      have habs : ¬ (storeGet r.store k).isSome = true := by
        intro hsome
        obtain ⟨v, hv⟩ := (storeGet_isSome_iff r.store k).mp hsome
        exact hmem ((mem_scan_iff r.store (i ++ ":") k).mpr ⟨hm, v, hv⟩)
      cases hg : storeGet r.store k with
      | none => rfl
      | some v => rw [hg] at habs; simp at habs
  · have hmem : k ∉ (r.store.filter
        (fun q => keyMatches (i ++ ":") q.1)).map (fun q => q.1) := by
      intro hc
      exact hm ((mem_scan_iff r.store (i ++ ":") k).mp hc).1
    rw [if_neg hmem, if_neg hm]

/-! ## Claims -/

/-- Claim C1: for every non-empty scope `s`, primary id `p` and external id
`e`, if `saveIds` returns true then `getExtId s p` returns `e` and
`getBotmaticId s e` returns `p`. -/
theorem C1_save_then_lookup (r : Redis) (s p e : String)
    (hs : s ≠ "") (hp : p ≠ "") (he : e ≠ "")
    (hok : (saveIds r s p e).2 = true) :
    getExtId (saveIds r s p e).1 s p = some e ∧
    getBotmaticId (saveIds r s p e).1 s e = some p := by
  rw [saveIds_snd, Bool.and_eq_true] at hok
  obtain ⟨h1, h2⟩ := hok
  have hst := saveIds_store_ok_ok r s p e h1 h2
  constructor
  · show storeGet (saveIds r s p e).1.store (buildBotmaticKey s p) = some e
    rw [hst,
      storeGet_storeSet_ne _ _ _ _ (buildBotmaticKey_ne_buildExternalKey s p e),
      storeGet_storeSet_self]
  · show storeGet (saveIds r s p e).1.store (buildExternalKey s e) = some p
    rw [hst, storeGet_storeSet_self]

/-- Witness for C1 at the spec's own example `("0","123","234")`. -/
theorem C1_save_then_lookup_witness :
    ("0" : String) ≠ "" ∧ ("123" : String) ≠ "" ∧ ("234" : String) ≠ "" ∧
    (saveIds redis0 "0" "123" "234").2 = true ∧
    (getExtId (saveIds redis0 "0" "123" "234").1 "0" "123" = some "234" ∧
      getBotmaticId (saveIds redis0 "0" "123" "234").1 "0" "234" = some "123") :=
  ⟨by decide, by decide, by decide, by decide,
    C1_save_then_lookup redis0 "0" "123" "234" (by decide) (by decide)
      (by decide) (by decide)⟩

/-- Claim C2 fails as stated: with a scope containing the delimiter, two
different triples of non-empty strings encode to the same key. -/
theorem C2_counterexample :
    encodeKey "a:b" Direction.primary "c" =
      encodeKey "a" Direction.primary "b:c" ∧
    ("a:b" : String) ≠ "a" ∧ ("a:b" : String) ≠ "" ∧ ("c" : String) ≠ "" ∧
    ("a" : String) ≠ "" ∧ ("b:c" : String) ≠ "" := by
  refine ⟨by decide, by decide, by decide, by decide, by decide, by decide⟩

/-- Claim C2 (amended): the key encoding is injective over triples of
non-empty strings whose scope is free of the `:` delimiter. -/
theorem C2_encodeKey_injective (s1 s2 : String) (d1 d2 : Direction)
    (i1 i2 : String) (hs1e : s1 ≠ "") (hi1e : i1 ≠ "") (hs2e : s2 ≠ "")
    (hi2e : i2 ≠ "") (hs1 : ':' ∉ s1.data) (hs2 : ':' ∉ s2.data)
    (h : encodeKey s1 d1 i1 = encodeKey s2 d2 i2) :
    s1 = s2 ∧ d1 = d2 ∧ i1 = i2 := by
  have hd := congrArg String.data h
  rw [data_encodeKey, data_encodeKey] at hd
  obtain ⟨hss, hrest⟩ := append_cons_inj hs1 hs2 hd
  simp only [List.cons.injEq] at hrest
  obtain ⟨htag, _, hii⟩ := hrest
  refine ⟨String.ext hss, ?_, String.ext hii⟩
  cases d1 <;> cases d2 <;> first
    | rfl
    | (simp only [tagChar] at htag; exact absurd htag (by decide))

/-- Witness for the amended C2 at a concrete triple. -/
theorem C2_encodeKey_injective_witness :
    ("u" : String) = "u" ∧ Direction.primary = Direction.primary ∧
    ("x" : String) = "x" :=
  C2_encodeKey_injective "u" "u" Direction.primary Direction.primary "x" "x"
    (by decide) (by decide) (by decide) (by decide) (by decide) (by decide) rfl

/-- Claim C3: saving a pair and then immediately deleting it leaves both
lookups absent, for every non-empty scope and ids and any prior state. -/
theorem C3_save_delete_absent (r : Redis) (s p e : String)
    (hs : s ≠ "") (hp : p ≠ "") (he : e ≠ "") :
    getExtId (deleteIds (saveIds r s p e).1 s p e).1 s p = none ∧
    getBotmaticId (deleteIds (saveIds r s p e).1 s p e).1 s e = none := by
  constructor
  · show storeGet (deleteIds (saveIds r s p e).1 s p e).1.store
      (buildBotmaticKey s p) = none
    rw [deleteIds_store,
      storeGet_storeDelKey_ne _ _ _ (buildBotmaticKey_ne_buildExternalKey s p e),
      storeGet_storeDelKey_self]
  · show storeGet (deleteIds (saveIds r s p e).1 s p e).1.store
      (buildExternalKey s e) = none
    rw [deleteIds_store, storeGet_storeDelKey_self]

/-- Witness for C3 at the spec's own example. -/
theorem C3_save_delete_absent_witness :
    ("0" : String) ≠ "" ∧ ("123" : String) ≠ "" ∧ ("234" : String) ≠ "" ∧
    (getExtId (deleteIds (saveIds redis0 "0" "123" "234").1 "0" "123" "234").1
        "0" "123" = none ∧
      getBotmaticId (deleteIds (saveIds redis0 "0" "123" "234").1
        "0" "123" "234").1 "0" "234" = none) :=
  ⟨by decide, by decide, by decide,
    C3_save_delete_absent redis0 "0" "123" "234" (by decide) (by decide)
      (by decide)⟩

/-- Claim C4: `deleteIds` returns true exactly when both deletes removed at
least one row, that is when both entries were present; a missing pair or a
half-present pair yields false. -/
theorem C4_deleteIds_true_iff (r : Redis) (s p e : String) :
    (deleteIds r s p e).2 = true ↔
      (storeGet r.store (buildBotmaticKey s p)).isSome = true ∧
      (storeGet r.store (buildExternalKey s e)).isSome = true := by
  simp only [deleteIds_snd, Bool.and_eq_true, decide_eq_true_eq,
    storeCount_pos_iff]

/-- Claim C5: `deleteAllIds` returns true exactly when the scan succeeds
(also over an empty key list, since the store is arbitrary here), false
only on scan error, and a bulk-delete error leaves the result unchanged. -/
theorem C5_deleteAllIds_result (r : Redis) (i : String) :
    (deleteAllIds r i).2 = r.scanOk ∧
    (deleteAllIds { r with bulkOk := false } i).2 =
      (deleteAllIds { r with bulkOk := true } i).2 := by
  refine ⟨deleteAllIds_snd r i, ?_⟩
  rw [deleteAllIds_snd, deleteAllIds_snd]

/-- Claim C6 fails as stated: deleting all keys of scope `"a"` also removes
the keys of the different scope `"a:b"`, because the scan pattern `a:*`
matches them. -/
theorem C6_counterexample :
    ("a:b" : String) ≠ "a" ∧
    getExtId (saveIds redis0 "a:b" "1" "2").1 "a:b" "1" = some "2" ∧
    getExtId (deleteAllIds (saveIds redis0 "a:b" "1" "2").1 "a").1
      "a:b" "1" = none := by
  refine ⟨by decide, by decide, by decide⟩

/-- Claim C6 (amended): for scopes free of the `:` delimiter,
`deleteAllIds s` leaves both lookup directions absent for every id of scope
`s` and leaves every key of a different delimiter-free scope unchanged. -/
theorem C6_deleteAllIds_scope (r : Redis) (s s2 p e q1 q2 : String)
    (hscan : r.scanOk = true) (hbulk : r.bulkOk = true)
    (hs : ':' ∉ s.data) (hs2 : ':' ∉ s2.data) (hne : s2 ≠ s) :
    getExtId (deleteAllIds r s).1 s q1 = none ∧
    getBotmaticId (deleteAllIds r s).1 s q2 = none ∧
    getExtId (deleteAllIds r s).1 s2 p = getExtId r s2 p ∧
    getBotmaticId (deleteAllIds r s).1 s2 e = getBotmaticId r s2 e := by
  refine ⟨?_, ?_, ?_, ?_⟩
  · show storeGet (deleteAllIds r s).1.store (buildBotmaticKey s q1) = none
    rw [deleteAllIds_storeGet r s hscan hbulk,
      if_pos (keyMatches_buildBotmaticKey_self s q1)]
  · show storeGet (deleteAllIds r s).1.store (buildExternalKey s q2) = none
    rw [deleteAllIds_storeGet r s hscan hbulk,
      if_pos (keyMatches_buildExternalKey_self s q2)]
  · show storeGet (deleteAllIds r s).1.store (buildBotmaticKey s2 p) =
      storeGet r.store (buildBotmaticKey s2 p)
    rw [deleteAllIds_storeGet r s hscan hbulk,
      if_neg (by rw [keyMatches_of_other_scope s s2 hs hs2 hne _ _
        (data_buildBotmaticKey s2 p)]; exact Bool.false_ne_true)]
  · show storeGet (deleteAllIds r s).1.store (buildExternalKey s2 e) =
      storeGet r.store (buildExternalKey s2 e)
    rw [deleteAllIds_storeGet r s hscan hbulk,
      if_neg (by rw [keyMatches_of_other_scope s s2 hs hs2 hne _ _
        (data_buildExternalKey s2 e)]; exact Bool.false_ne_true)]

/-- Witness for the amended C6 at concrete scopes `"a"` and `"b"`. -/
theorem C6_deleteAllIds_scope_witness :
    redis0.scanOk = true ∧ redis0.bulkOk = true ∧
    ':' ∉ ("a" : String).data ∧ ':' ∉ ("b" : String).data ∧
    ("b" : String) ≠ "a" ∧
    (getExtId (deleteAllIds redis0 "a").1 "a" "x" = none ∧
      getBotmaticId (deleteAllIds redis0 "a").1 "a" "y" = none ∧
      getExtId (deleteAllIds redis0 "a").1 "b" "p" = getExtId redis0 "b" "p" ∧
      getBotmaticId (deleteAllIds redis0 "a").1 "b" "q" =
        getBotmaticId redis0 "b" "q") :=
  ⟨rfl, rfl, by decide, by decide, by decide,
    C6_deleteAllIds_scope redis0 "a" "b" "p" "q" "x" "y" rfl rfl
      (by decide) (by decide) (by decide)⟩

/-- Claim C7: `saveIds` reports true exactly when both sets succeed, and on
a partial failure it reports false while the entry written by the
successful set stays in place (no rollback). -/
theorem C7_saveIds_no_rollback (r : Redis) (s p e : String) :
    (saveIds r s p e).2 =
      (r.setOk (buildBotmaticKey s p) && r.setOk (buildExternalKey s e)) ∧
    (r.setOk (buildBotmaticKey s p) = true →
      r.setOk (buildExternalKey s e) = false →
      (saveIds r s p e).2 = false ∧
        storeGet (saveIds r s p e).1.store (buildBotmaticKey s p) = some e) ∧
    (r.setOk (buildBotmaticKey s p) = false →
      r.setOk (buildExternalKey s e) = true →
      (saveIds r s p e).2 = false ∧
        storeGet (saveIds r s p e).1.store (buildExternalKey s e) = some p) := by
  refine ⟨saveIds_snd r s p e, ?_, ?_⟩
  · intro h1 h2
    refine ⟨by rw [saveIds_snd, h1, h2]; rfl, ?_⟩
    rw [saveIds_store_ok_err r s p e h1 h2, storeGet_storeSet_self]
  · intro h1 h2
    refine ⟨by rw [saveIds_snd, h1, h2]; rfl, ?_⟩
    rw [saveIds_store_err_ok r s p e h1 h2, storeGet_storeSet_self]

/-- A client on which only the forward set of the pair
`("s", "p", "e")` succeeds. -/
def redisBotOnly : Redis :=
  { setOk := fun k => k == buildBotmaticKey "s" "p" }

/-- Witness for C7 on a client whose reverse set fails. -/
theorem C7_saveIds_no_rollback_witness :
    (saveIds redisBotOnly "s" "p" "e").2 =
      (redisBotOnly.setOk (buildBotmaticKey "s" "p") &&
        redisBotOnly.setOk (buildExternalKey "s" "e")) ∧
    ((saveIds redisBotOnly "s" "p" "e").2 = false ∧
      storeGet (saveIds redisBotOnly "s" "p" "e").1.store
        (buildBotmaticKey "s" "p") = some "e") :=
  ⟨(C7_saveIds_no_rollback redisBotOnly "s" "p" "e").1,
    (C7_saveIds_no_rollback redisBotOnly "s" "p" "e").2.1 (by decide) (by decide)⟩

/-- Claim C8 fails as stated: a save with every required argument empty is
not coalesced into false; the always-non-empty built keys pass the guard
and the call reports the backend result, true on a healthy client. -/
theorem C8_counterexample : (saveIds redis0 "" "" "").2 = true := by decide

/-- Claim C8 (amended): `saveIds` performs no validation of empty
arguments: the guard always passes and an all-empty call reports exactly
what the backend answers for the degenerate keys `":b:"` and `":e:"`. -/
theorem C8_saveIds_empty_args (r : Redis) :
    (saveIds r "" "" "").2 = (r.setOk ":b:" && r.setOk ":e:") := by
  have h := saveIds_snd r "" "" ""
  have hb : buildBotmaticKey "" "" = ":b:" := rfl
  have he : buildExternalKey "" "" = ":e:" := rfl
  rw [hb, he] at h
  exact h

/-- Claim C9: after `deleteIds` both encoded keys are absent from the
backend, for every prior state and irrespective of the reported result. -/
theorem C9_deleteIds_unconditional (r : Redis) (s p e : String) :
    storeGet (deleteIds r s p e).1.store (buildBotmaticKey s p) = none ∧
    storeGet (deleteIds r s p e).1.store (buildExternalKey s e) = none := by
  constructor
  · rw [deleteIds_store,
      storeGet_storeDelKey_ne _ _ _ (buildBotmaticKey_ne_buildExternalKey s p e),
      storeGet_storeDelKey_self]
  · rw [deleteIds_store, storeGet_storeDelKey_self]

/-- Claim C10: re-saving the same primary id with a new external id leaves
the stale reverse entry behind: the old external id still maps to the
primary id while the forward entry already holds the new external id. -/
theorem C10_stale_reverse (r : Redis) (s p e1 e2 : String) (hne : e1 ≠ e2)
    (h1 : (saveIds r s p e1).2 = true)
    (h2 : (saveIds (saveIds r s p e1).1 s p e2).2 = true) :
    getBotmaticId (saveIds (saveIds r s p e1).1 s p e2).1 s e1 = some p ∧
    getExtId (saveIds (saveIds r s p e1).1 s p e2).1 s p = some e2 := by
  rw [saveIds_snd, Bool.and_eq_true] at h1
  rw [saveIds_snd, saveIds_setOk, Bool.and_eq_true] at h2
  obtain ⟨h1b, h1e⟩ := h1
  obtain ⟨h2b, h2e⟩ := h2
  have hst1 := saveIds_store_ok_ok r s p e1 h1b h1e
  have hst2 := saveIds_store_ok_ok (saveIds r s p e1).1 s p e2
    (by rw [saveIds_setOk]; exact h2b) (by rw [saveIds_setOk]; exact h2e)
  have hek12 : buildExternalKey s e1 ≠ buildExternalKey s e2 :=
    fun hc => hne (buildExternalKey_inj_id s e1 e2 hc)
  constructor
  · show storeGet (saveIds (saveIds r s p e1).1 s p e2).1.store
      (buildExternalKey s e1) = some p
    rw [hst2, storeGet_storeSet_ne _ _ _ _ hek12,
      storeGet_storeSet_ne _ _ _ _
        (Ne.symm (buildBotmaticKey_ne_buildExternalKey s p e1)),
      hst1, storeGet_storeSet_self]
  · show storeGet (saveIds (saveIds r s p e1).1 s p e2).1.store
      (buildBotmaticKey s p) = some e2
    rw [hst2,
      storeGet_storeSet_ne _ _ _ _
        (buildBotmaticKey_ne_buildExternalKey s p e2),
      storeGet_storeSet_self]

/-- Witness for C10 at a concrete double save. -/
theorem C10_stale_reverse_witness :
    ("234" : String) ≠ "235" ∧
    (saveIds redis0 "0" "123" "234").2 = true ∧
    (saveIds (saveIds redis0 "0" "123" "234").1 "0" "123" "235").2 = true ∧
    (getBotmaticId
        (saveIds (saveIds redis0 "0" "123" "234").1 "0" "123" "235").1
        "0" "234" = some "123" ∧
      getExtId (saveIds (saveIds redis0 "0" "123" "234").1 "0" "123" "235").1
        "0" "123" = some "235") :=
  ⟨by decide, by decide, by decide,
    C10_stale_reverse redis0 "0" "123" "234" "235" (by decide) (by decide)
      (by decide)⟩
